import Mathlib

/-!
Verification of the PlotBott workflow scripts.

This file shallowly embeds the core of the repository:

* `convert_workflow_to_api` (scripts/convert-workflow.py, lines 5-48): the
  editor-graph to execution-graph converter;
* the positive-prompt selection/update loop (scripts/convert-workflow.py,
  lines 62-68);
* `parse_broll_prompts` (scripts/generate-images-working.py, lines 14-36,
  identical in scripts/generate-images-local.py);
* `generate_image` (scripts/generate-images-working.py, lines 38-100): the
  submission and polling client.

Python dicts are embedded as insertion-ordered association lists, dict
assignment as `dictInsert`, printing as an explicit log of emitted lines,
and HTTP traffic as oracle functions supplied to the embedded client.
Python exceptions (the `IndexError` that `node['widgets_values'][0]` can
raise) surface as `Except.error`.  Node ids and output-slot indices are
nonnegative integers in the editor format and are embedded as `Nat`;
`pyStr` below embeds Python's `str()` on them.
-/

/-- Decimal digits, least significant first, with explicit fuel (any fuel
above the digit count gives the digits; `pyDigitsRev` supplies enough). -/
def pyDigitsRevFuel : Nat → Nat → List Char
  | 0, _ => []
  | fuel + 1, n =>
    if n < 10 then [Nat.digitChar n]
    else Nat.digitChar (n % 10) :: pyDigitsRevFuel fuel (n / 10)

/-- Decimal digits of a natural number, least significant first, as produced
by Python's `str()` (so `0` renders as `"0"`). -/
def pyDigitsRev (n : Nat) : List Char :=
  pyDigitsRevFuel (n + 1) n

/-- Embedding of Python's `str()` on a nonnegative integer. -/
def pyStr (n : Nat) : String :=
  ⟨(pyDigitsRev n).reverse⟩

/-- Numeric value of a decimal digit character. -/
def digitVal (c : Char) : Nat := c.toNat - 48

/-- Value of a least-significant-first digit list. -/
def revVal : List Char → Nat
  | [] => 0
  | c :: rest => digitVal c + 10 * revVal rest

theorem digitVal_digitChar : ∀ n, n < 10 → digitVal (Nat.digitChar n) = n := by
  decide

theorem revVal_pyDigitsRevFuel :
    ∀ fuel n, n < fuel → revVal (pyDigitsRevFuel fuel n) = n := by
  intro fuel
  induction fuel with
  | zero => omega
  | succ f ih =>
    intro n hn
    rw [pyDigitsRevFuel]
    by_cases h : n < 10
    · rw [if_pos h]
      simp [revVal, digitVal_digitChar n h]
    · rw [if_neg h]
      have hdiv : n / 10 < f := by
        have : n / 10 < n := Nat.div_lt_self (by omega) (by omega)
        omega
      simp only [revVal, ih (n / 10) hdiv,
        digitVal_digitChar (n % 10) (Nat.mod_lt _ (by omega))]
      omega

theorem revVal_pyDigitsRev (n : Nat) : revVal (pyDigitsRev n) = n :=
  revVal_pyDigitsRevFuel (n + 1) n (by omega)

theorem pyStr_injective : Function.Injective pyStr := by
  intro m n h
  have hd : (pyDigitsRev m).reverse = (pyDigitsRev n).reverse :=
    congrArg String.data h
  have : pyDigitsRev m = pyDigitsRev n := by
    have := congrArg List.reverse hd
    simpa using this
  calc m = revVal (pyDigitsRev m) := (revVal_pyDigitsRev m).symm
    _ = revVal (pyDigitsRev n) := by rw [this]
    _ = n := revVal_pyDigitsRev n

/-- Python dict assignment `d[k] = v` on an insertion-ordered association
list: an existing key keeps its position and gets the new value, a new key
is appended at the end. -/
def dictInsert {α : Type} (k : String) (v : α) : List (String × α) → List (String × α)
  | [] => [(k, v)]
  | (k', v') :: rest =>
    if k' = k then (k', v) :: rest else (k', v') :: dictInsert k v rest

/-- Python dict lookup `d[k]` / `d.get(k)` (keys are unique by construction,
so first match suffices). -/
def dictGet {α : Type} (k : String) : List (String × α) → Option α
  | [] => none
  | (k', v) :: rest => if k' = k then some v else dictGet k rest

theorem dictGet_dictInsert_self {α : Type} (k : String) (v : α)
    (l : List (String × α)) : dictGet k (dictInsert k v l) = some v := by
  induction l with
  | nil => simp [dictInsert, dictGet]
  | cons hd tl ih =>
    obtain ⟨k', v'⟩ := hd
    by_cases h : k' = k
    · simp [dictInsert, dictGet, h]
    · simp [dictInsert, dictGet, h, ih]

theorem dictGet_dictInsert_ne {α : Type} {k k' : String} (v : α)
    (l : List (String × α)) (h : k' ≠ k) :
    dictGet k (dictInsert k' v l) = dictGet k l := by
  induction l with
  | nil => simp [dictInsert, dictGet, h]
  | cons hd tl ih =>
    obtain ⟨k'', v''⟩ := hd
    by_cases h2 : k'' = k'
    · subst h2
      simp [dictInsert, dictGet, h]
    · by_cases h3 : k'' = k
      · simp [dictInsert, dictGet, h2, h3, Ne.symm h]
      · simp [dictInsert, dictGet, h2, h3, ih]

theorem dictInsert_cons_self {α : Type} (k : String) (v v' : α)
    (tl : List (String × α)) :
    dictInsert k v ((k, v') :: tl) = (k, v) :: tl := by
  simp [dictInsert]

theorem dictInsert_cons_ne {α : Type} {k k' : String} (v v' : α)
    (tl : List (String × α)) (h : k' ≠ k) :
    dictInsert k v ((k', v') :: tl) = (k', v') :: dictInsert k v tl := by
  simp [dictInsert, h]

theorem mem_keys_dictInsert {α : Type} (a k : String) (v : α)
    (l : List (String × α)) :
    a ∈ (dictInsert k v l).map Prod.fst ↔ a = k ∨ a ∈ l.map Prod.fst := by
  induction l with
  | nil => simp [dictInsert]
  | cons hd tl ih =>
    obtain ⟨k', v'⟩ := hd
    by_cases h : k' = k
    · subst h
      rw [dictInsert_cons_self]
      simp only [List.map_cons, List.mem_cons]
      tauto
    · rw [dictInsert_cons_ne _ _ _ h]
      simp only [List.map_cons, List.mem_cons]
      rw [ih]
      tauto

theorem snd_mem_dictInsert {α : Type} {p : String × α} {k : String} {v : α}
    {l : List (String × α)} :
    p ∈ dictInsert k v l → p.2 = v ∨ ∃ q ∈ l, p.2 = q.2 := by
  induction l with
  | nil =>
    intro hp
    simp only [dictInsert, List.mem_singleton] at hp
    subst hp
    exact Or.inl rfl
  | cons hd tl ih =>
    intro hp
    obtain ⟨k', v'⟩ := hd
    by_cases hk : k' = k
    · subst hk
      rw [dictInsert_cons_self] at hp
      simp only [List.mem_cons] at hp
      rcases hp with h | h
      · subst h
        exact Or.inl rfl
      · exact Or.inr ⟨p, List.mem_cons.2 (Or.inr h), rfl⟩
    · rw [dictInsert_cons_ne _ _ _ hk] at hp
      simp only [List.mem_cons] at hp
      rcases hp with h | h
      · subst h
        exact Or.inr ⟨(k', v'), List.mem_cons.2 (Or.inl rfl), rfl⟩
      · rcases ih h with h2 | ⟨q, hq, h3⟩
        · exact Or.inl h2
        · exact Or.inr ⟨q, List.mem_cons.2 (Or.inr hq), h3⟩

/-! ### Editor-graph data model (scripts/convert-workflow.py) -/

/-- A literal widget value as carried in `widgets_values` (a JSON scalar;
this development needs only strings and integers). -/
inductive Value
  | vStr (s : String)
  | vInt (n : Int)
deriving DecidableEq

/-- A value stored under an input name of an API-format node: either a
literal widget value or a `[source_node_id, source_output_index]` reference
pair (convert-workflow.py line 43). -/
inductive InputVal
  | lit (v : Value)
  | ref (src : String) (slot : Nat)
deriving DecidableEq

/-- An API-format node: `class_type`, the optional `_meta.title`, and the
`inputs` dict (convert-workflow.py lines 14-21). -/
structure ApiNode where
  class_type : String
  meta_title : Option String
  inputs : List (String × InputVal)
deriving DecidableEq

/-- One entry of an editor node's `inputs` array: a name and an optional
link id (`link` absent or JSON `null` both behave as no link, since a
missing id never matches the link table). -/
structure InputInfo where
  name : String
  link : Option Nat
deriving DecidableEq

/-- One entry of the editor graph's global `links` array; the converter
reads positions 0 (link id), 1 (source node id) and 2 (source output
slot). -/
structure Link where
  id : Nat
  source : Nat
  slot : Nat
deriving DecidableEq

/-- An editor-format node; `title`, `widgets_values` are optional keys.
An absent `inputs` key behaves exactly like an empty array, so `inputs`
is a plain list. -/
structure EditorNode where
  id : Nat
  type : String
  title : Option String
  widgets_values : Option (List Value)
  inputs : List InputInfo
deriving DecidableEq

/-- An editor-format workflow; absent `nodes`/`links` keys behave exactly
like empty arrays. -/
structure Workflow where
  nodes : List EditorNode
  links : List Link
deriving DecidableEq

/-! ### The converter (convert_workflow_to_api, lines 5-48) -/

/-- Widget conversion (lines 24-28): only `CLIPTextEncode` nodes get a
literal input, named `text`, from `widgets_values[0]`.  A present but
empty `widgets_values` makes `node['widgets_values'][0]` raise
`IndexError`, which aborts the whole conversion. -/
def applyWidgets (node : EditorNode) (acc : List (String × InputVal)) :
    Except String (List (String × InputVal)) :=
  match node.widgets_values with
  | none => .ok acc
  | some ws =>
    if node.type = "CLIPTextEncode" then
      match ws with
      | [] => .error "IndexError"
      | v :: _ => .ok (dictInsert "text" (.lit v) acc)
    else .ok acc

/-- The inner scan of the `links` array (lines 39-44): first entry whose
position-0 element equals the wanted link id, if any. -/
def findLink (lid : Nat) : List Link → Option Link
  | [] => none
  | l :: rest => if l.id = lid then some l else findLink lid rest

/-- Input-connection conversion (lines 31-44): each input that carries a
link id whose entry is found in the link table stores the reference pair
under the input's name; an unresolved link leaves the dict untouched. -/
def resolveInputs (links : List Link) :
    List InputInfo → List (String × InputVal) → List (String × InputVal)
  | [], acc => acc
  | info :: rest, acc =>
    match info.link with
    | none => resolveInputs links rest acc
    | some lid =>
      match findLink lid links with
      | none => resolveInputs links rest acc
      | some l =>
        resolveInputs links rest
          (dictInsert info.name (.ref (pyStr l.source) l.slot) acc)

/-- Conversion of one editor node (the loop body, lines 10-46). -/
def convertNode (links : List Link) (node : EditorNode) :
    Except String ApiNode :=
  match applyWidgets node [] with
  | .error e => .error e
  | .ok winputs =>
    .ok { class_type := node.type
          meta_title := node.title
          inputs := resolveInputs links node.inputs winputs }

/-- The node loop (lines 9-46): each converted node is stored in the
result dict under the string form of its id; a raised `IndexError`
propagates and aborts the conversion. -/
def convertNodes (links : List Link) :
    List EditorNode → List (String × ApiNode) →
    Except String (List (String × ApiNode))
  | [], acc => .ok acc
  | node :: rest, acc =>
    match convertNode links node with
    | .error e => .error e
    | .ok api => convertNodes links rest (dictInsert (pyStr node.id) api acc)

/-- Embedding of `convert_workflow_to_api` (lines 5-48). -/
def convert_workflow_to_api (wf : Workflow) :
    Except String (List (String × ApiNode)) :=
  convertNodes wf.links wf.nodes []

/-! ### Positive-prompt selection and update (convert-workflow.py, lines 62-68) -/

/-- Python's `str.lower()` (everything here is ASCII). -/
def pyLower (s : String) : String :=
  ⟨s.data.map Char.toLower⟩

/-- Python's substring test `needle in hay`. -/
def containsSub (needle : List Char) : List Char → Bool
  | [] => needle.isEmpty
  | c :: rest => needle.isPrefixOf (c :: rest) || containsSub needle rest

/-- The loop's node test (lines 63-65): `class_type` is `CLIPTextEncode`
and the lower-cased `_meta.title` (empty string when absent) does not
contain `negative`. -/
def isPositiveTextNode (n : ApiNode) : Bool :=
  n.class_type == "CLIPTextEncode" &&
    !containsSub "negative".data (pyLower (n.meta_title.getD "")).data

/-- The node the loop of lines 62-68 stops at: the first entry of the
API-format dict satisfying `isPositiveTextNode`. -/
def selectPositive : List (String × ApiNode) → Option (String × ApiNode)
  | [] => none
  | kv :: rest =>
    if isPositiveTextNode kv.2 then some kv else selectPositive rest

/-- The loop of lines 62-68 as a whole: overwrite the `text` input of the
first positive text node and stop (`break`); later entries are untouched. -/
def updatePositivePrompt (newText : String) :
    List (String × ApiNode) → List (String × ApiNode)
  | [] => []
  | (k, n) :: rest =>
    if isPositiveTextNode n then
      (k, { n with inputs := dictInsert "text" (.lit (.vStr newText)) n.inputs })
        :: rest
    else (k, n) :: updatePositivePrompt newText rest

/-! ### parse_broll_prompts (generate-images-working.py lines 14-36,
identical in generate-images-local.py lines 13-35)

The two regexes are embedded by their exact matching semantics:

* `## Scene (\d+).*?<fence>\n(.*?)\n<fence>` with DOTALL (where `<fence>`
  is three backticks): at a given start, the literal `## Scene `, then a
  maximal nonempty digit run (greedy `\d+`; backtracking into the run can
  never help, because an opening fence cannot start inside digits), then
  the lazy `.*?` stops at the first opening fence, and the lazy `(.*?)`
  stops at the first later `\n` + fence (if no closing fence follows the
  first opening fence, none follows a later one either, so the whole
  attempt fails).  `re.findall` takes leftmost matches and continues after
  each match's end.
* `# Episode (\d+) B-roll Prompts`: literal, digit run, literal.
-/

/-- Consume an exact literal. -/
def dropLit : List Char → List Char → Option (List Char)
  | [], s => some s
  | _ :: _, [] => none
  | p :: ps, c :: cs => if c = p then dropLit ps cs else none

/-- Maximal (possibly empty) digit run at the front, and the remainder. -/
def digitsSpan : List Char → List Char × List Char
  | [] => ([], [])
  | c :: rest =>
    if c.isDigit then
      let (d, r) := digitsSpan rest
      (c :: d, r)
    else ([], c :: rest)

/-- Split at the first occurrence of a (nonempty) literal: the part before
it and the part after it. -/
def splitOnFirst (needle : List Char) : List Char → Option (List Char × List Char)
  | [] => none
  | c :: rest =>
    if needle.isPrefixOf (c :: rest) then
      some ([], (c :: rest).drop needle.length)
    else
      match splitOnFirst needle rest with
      | some (b, a) => some (c :: b, a)
      | none => none

/-- Scene-pattern match attempt at one start position: scene-number
digits, captured prompt text, and the remainder after the match. -/
def matchSceneAt (s : List Char) : Option (List Char × List Char × List Char) :=
  match dropLit "## Scene ".data s with
  | none => none
  | some r1 =>
    let (ds, r2) := digitsSpan r1
    if ds.isEmpty then none
    else
      match splitOnFirst "```\n".data r2 with
      | none => none
      | some (_, afterOpen) =>
        match splitOnFirst "\n```".data afterOpen with
        | none => none
        | some (prompt, rest) => some (ds, prompt, rest)

/-- `re.findall` for the scene pattern (fuel = remaining input length). -/
def sceneScan : Nat → List Char → List (List Char × List Char)
  | 0, _ => []
  | _ + 1, [] => []
  | fuel + 1, c :: rest =>
    match matchSceneAt (c :: rest) with
    | some (ds, prompt, after) => (ds, prompt) :: sceneScan fuel after
    | none => sceneScan fuel rest

/-- Episode-pattern match attempt at one start position. -/
def matchEpisodeAt (s : List Char) : Option (List Char × List Char) :=
  match dropLit "# Episode ".data s with
  | none => none
  | some r1 =>
    let (ds, r2) := digitsSpan r1
    if ds.isEmpty then none
    else
      match dropLit " B-roll Prompts".data r2 with
      | none => none
      | some r3 => some (ds, r3)

/-- `re.findall` for the episode pattern. -/
def episodeScan : Nat → List Char → List (List Char)
  | 0, _ => []
  | _ + 1, [] => []
  | fuel + 1, c :: rest =>
    match matchEpisodeAt (c :: rest) with
    | some (ds, after) => ds :: episodeScan fuel after
    | none => episodeScan fuel rest

/-- Python `int()` on a digit string. -/
def pyInt (ds : List Char) : Nat :=
  ds.foldl (fun acc c => acc * 10 + digitVal c) 0

/-- Python's whitespace class used by `str.strip()`. -/
def isPySpace (c : Char) : Bool :=
  c = ' ' || c = '\t' || c = '\n' || c = '\r' || c = '\x0b' || c = '\x0c'

/-- Python's `str.strip()`. -/
def pyStrip (s : List Char) : List Char :=
  ((s.dropWhile isPySpace).reverse.dropWhile isPySpace).reverse

/-- One record of the parser's output. -/
structure PromptRec where
  episode : Nat
  scene : Nat
  prompt : List Char
deriving DecidableEq

/-- Embedding of `parse_broll_prompts`: the scene matches in document
order; for each of them the episode number is recomputed by running the
episode pattern over the whole document and taking the last match
(defaulting to 1), so all records share it. -/
def parse_broll_prompts (content : String) : List PromptRec :=
  let cs := content.data
  let scenes := sceneScan cs.length cs
  let eps := episodeScan cs.length cs
  let episode_num :=
    match eps.getLast? with
    | some ds => pyInt ds
    | none => 1
  scenes.map fun m =>
    { episode := episode_num, scene := pyInt m.1, prompt := pyStrip m.2 }

/-! ### generate_image (generate-images-working.py, lines 38-100)

The client's HTTP traffic is embedded as oracles: the submission response
is an input, the poll responses come from a function of the attempt index
(one `GET /history/{prompt_id}` per loop iteration), and `os.path.exists`
is a predicate on paths.  Printing is embedded as the returned list of
emitted lines, so the function's observable outcome is the pair
(returned boolean, log).  The workflow loading and prompt injection that
precede submission (lines 41-54) do not affect this exchange and are
embedded separately as `injectPrompt`. -/

/-- Prompt injection of generate-images-working.py lines 46-54 (and
generate-images-local.py lines 48-54): the first `CLIPTextEncode` node
that has a `widgets_values` key and whose lower-cased title (empty when
absent) lacks `negative` gets its `widgets_values` replaced by the
one-element list holding the prompt text. -/
def injectPrompt (promptText : String) : List EditorNode → List EditorNode
  | [] => []
  | n :: rest =>
    if n.type == "CLIPTextEncode" && n.widgets_values.isSome &&
        !containsSub "negative".data (pyLower (n.title.getD "")).data then
      { n with widgets_values := some [.vStr promptText] } :: rest
    else n :: injectPrompt promptText rest

/-- The submission response: HTTP status, body text, and the JSON body's
optional `prompt_id` field. -/
structure SubmitResp where
  status : Nat
  text : String
  prompt_id : Option String
deriving DecidableEq

/-- One entry of an `images` array in the history payload. -/
structure ImageEntry where
  filename : String
deriving DecidableEq

/-- One node's entry in the history `outputs` mapping; `images` is an
optional key. -/
structure OutputEntry where
  images : Option (List ImageEntry)
deriving DecidableEq

/-- One poll response: HTTP status, whether the submitted prompt id is a
key of the history JSON, and that key's `outputs` mapping (default empty). -/
structure HistoryResp where
  status : Nat
  hasPrompt : Bool
  outputs : List (String × OutputEntry)
deriving DecidableEq

/-- The hardcoded directory images are copied from (line 82). -/
def comfyOutputDir : String := "/Users/even/projects/personal/ComfyUI/output/"

/-- Inner image loop (lines 80-87): first image whose source file exists. -/
def findExistingImage (fx : String → Bool) : List ImageEntry → Option String
  | [] => none
  | img :: rest =>
    let src := comfyOutputDir ++ img.filename
    if fx src then some src else findExistingImage fx rest

/-- Outputs loop (lines 78-87): first existing image over all entries that
have an `images` key. -/
def scanOutputs (fx : String → Bool) : List (String × OutputEntry) → Option String
  | [] => none
  | (_, o) :: rest =>
    match o.images with
    | none => scanOutputs fx rest
    | some imgs =>
      match findExistingImage fx imgs with
      | some src => some src
      | none => scanOutputs fx rest

/-- Polling loop (lines 69-92).  A response with status 200 whose history
contains the prompt id and has non-empty outputs ends the loop: with an
existing image the call succeeds, otherwise the `break` falls through to
the timeout message.  Any other response leads to the next attempt, and
exhausting the budget (60 attempts) falls through to the timeout message. -/
def pollLoop (oracle : Nat → HistoryResp) (fx : String → Bool)
    (outputPath : String) : Nat → Nat → Bool × List String
  | 0, _ => (false, ["⏰ Timeout waiting for image generation"])
  | fuel + 1, i =>
    if (oracle i).status == 200 && (oracle i).hasPrompt then
      if (oracle i).outputs.isEmpty then pollLoop oracle fx outputPath fuel (i + 1)
      else
        match scanOutputs fx (oracle i).outputs with
        | some _ =>
          (true, ["🎉 Generation complete!", "📸 Generated: " ++ outputPath])
        | none =>
          (false, ["🎉 Generation complete!",
                   "⏰ Timeout waiting for image generation"])
    else pollLoop oracle fx outputPath fuel (i + 1)

/-- Python's f-string rendering of an optional string. -/
def pyOptStr : Option String → String
  | none => "None"
  | some s => s

/-- Embedding of `generate_image` from submission onwards (lines 56-96):
on a 200 submission response the poll loop runs with a budget of 60
attempts; on any other status the function prints the status and body and
returns `False` without issuing a single poll request (the oracles are
not consulted). -/
def generate_image (submit : SubmitResp) (oracle : Nat → HistoryResp)
    (fx : String → Bool) (outputPath : String) : Bool × List String :=
  let log0 := ["🚀 Submitting to ComfyUI..."]
  if submit.status == 200 then
    let r := pollLoop oracle fx outputPath 60 0
    (r.1, log0 ++ ("✅ Submitted! Prompt ID: " ++ pyOptStr submit.prompt_id) :: r.2)
  else
    (false,
     log0 ++ ["❌ Failed to submit: " ++ pyStr submit.status ++ " - " ++ submit.text])

/-! ### Converter lemmas -/

theorem findLink_eq_none {lid : Nat} {links : List Link}
    (h : ∀ l ∈ links, l.id ≠ lid) : findLink lid links = none := by
  induction links with
  | nil => rfl
  | cons l rest ih =>
    have hl : l.id ≠ lid := h l (List.mem_cons.2 (Or.inl rfl))
    simp only [findLink, if_neg hl]
    exact ih fun x hx => h x (List.mem_cons.2 (Or.inr hx))

theorem findLink_first {lid : Nat} {lk : Link} (L1 L2 : List Link)
    (h1 : ∀ l ∈ L1, l.id ≠ lid) (h2 : lk.id = lid) :
    findLink lid (L1 ++ lk :: L2) = some lk := by
  induction L1 with
  | nil => simp [findLink, h2]
  | cons l rest ih =>
    have hl : l.id ≠ lid := h1 l (List.mem_cons.2 (Or.inl rfl))
    simp only [List.cons_append, findLink, if_neg hl]
    exact ih fun x hx => h1 x (List.mem_cons.2 (Or.inr hx))

theorem findLink_mem {lid : Nat} {links : List Link} {l : Link} :
    findLink lid links = some l → l ∈ links ∧ l.id = lid := by
  induction links with
  | nil => intro h; cases h
  | cons hd rest ih =>
    intro h
    by_cases hh : hd.id = lid
    · simp only [findLink, if_pos hh] at h
      cases h
      exact ⟨List.mem_cons.2 (Or.inl rfl), hh⟩
    · simp only [findLink, if_neg hh] at h
      obtain ⟨hm, hi⟩ := ih h
      exact ⟨List.mem_cons.2 (Or.inr hm), hi⟩

theorem resolveInputs_append (links : List Link) (i1 i2 : List InputInfo) :
    ∀ acc, resolveInputs links (i1 ++ i2) acc =
      resolveInputs links i2 (resolveInputs links i1 acc) := by
  induction i1 with
  | nil => intro acc; rfl
  | cons info rest ih =>
    intro acc
    cases hl : info.link with
    | none => simp only [List.cons_append, resolveInputs, hl]; exact ih _
    | some lid =>
      cases hf : findLink lid links with
      | none => simp only [List.cons_append, resolveInputs, hl, hf]; exact ih _
      | some l => simp only [List.cons_append, resolveInputs, hl, hf]; exact ih _

/-- Inputs that never resolve a link under a given name leave the dict
entry under that name unchanged. -/
theorem dictGet_resolveInputs_no_touch (links : List Link) (X : String) :
    ∀ (infos : List InputInfo) (acc : List (String × InputVal)),
    (∀ info ∈ infos, info.name = X →
      ∀ lid, info.link = some lid → findLink lid links = none) →
    dictGet X (resolveInputs links infos acc) = dictGet X acc := by
  intro infos
  induction infos with
  | nil => intro acc _; rfl
  | cons info rest ih =>
    intro acc h
    have hrest : ∀ i ∈ rest, i.name = X →
        ∀ lid, i.link = some lid → findLink lid links = none :=
      fun i hi => h i (List.mem_cons.2 (Or.inr hi))
    cases hl : info.link with
    | none =>
      simp only [resolveInputs, hl]
      exact ih _ hrest
    | some lid =>
      cases hf : findLink lid links with
      | none =>
        simp only [resolveInputs, hl, hf]
        exact ih _ hrest
      | some l =>
        have hname : info.name ≠ X := by
          intro hX
          have := h info (List.mem_cons.2 (Or.inl rfl)) hX lid hl
          rw [this] at hf
          cases hf
        simp only [resolveInputs, hl, hf]
        rw [ih _ hrest, dictGet_dictInsert_ne _ _ hname]

theorem dictInsert_not_mem {α : Type} {k : String} (v : α)
    {l : List (String × α)} (h : k ∉ l.map Prod.fst) :
    dictInsert k v l = l ++ [(k, v)] := by
  induction l with
  | nil => rfl
  | cons hd tl ih =>
    obtain ⟨k', v'⟩ := hd
    have hk : k' ≠ k := by
      intro he
      exact h (by simp [he])
    rw [dictInsert_cons_ne _ _ _ hk, List.cons_append,
      ih (fun hm => h (by simp [List.mem_cons]; right; simpa using hm))]

/-- A node whose widgets cannot raise `IndexError` converts successfully. -/
theorem convertNode_ok (links : List Link) (node : EditorNode)
    (h : node.type = "CLIPTextEncode" → node.widgets_values ≠ some []) :
    ∃ api, convertNode links node = .ok api := by
  unfold convertNode applyWidgets
  cases hw : node.widgets_values with
  | none => exact ⟨_, rfl⟩
  | some ws =>
    by_cases ht : node.type = "CLIPTextEncode"
    · cases ws with
      | nil => exact absurd hw (h ht)
      | cons v rest => simp only [if_pos ht]; exact ⟨_, rfl⟩
    · simp only [if_neg ht]; exact ⟨_, rfl⟩

/-- Key list of a successful conversion, with distinct fresh ids: one key
per node, in order, appended to the accumulator's keys. -/
theorem convertNodes_keys (links : List Link) :
    ∀ (nodes : List EditorNode) (acc : List (String × ApiNode)),
    (∀ n ∈ nodes, n.type = "CLIPTextEncode" → n.widgets_values ≠ some []) →
    (nodes.map fun n => pyStr n.id).Nodup →
    (∀ n ∈ nodes, pyStr n.id ∉ acc.map Prod.fst) →
    ∃ g, convertNodes links nodes acc = .ok g ∧
      g.map Prod.fst = acc.map Prod.fst ++ nodes.map fun n => pyStr n.id := by
  intro nodes
  induction nodes with
  | nil =>
    intro acc _ _ _
    exact ⟨acc, rfl, by simp⟩
  | cons node rest ih =>
    intro acc hcrash hnodup hfresh
    obtain ⟨api, hapi⟩ :=
      convertNode_ok links node (hcrash node (List.mem_cons.2 (Or.inl rfl)))
    have hknotin : pyStr node.id ∉ acc.map Prod.fst :=
      hfresh node (List.mem_cons.2 (Or.inl rfl))
    have hins : dictInsert (pyStr node.id) api acc = acc ++ [(pyStr node.id, api)] :=
      dictInsert_not_mem api hknotin
    simp only [List.map_cons, List.nodup_cons] at hnodup
    obtain ⟨api2, hg, hkeys⟩ := ih (dictInsert (pyStr node.id) api acc)
      (fun n hn => hcrash n (List.mem_cons.2 (Or.inr hn)))
      hnodup.2
      (by
        intro n hn
        rw [hins]
        simp only [List.map_append, List.mem_append, List.map_cons]
        rintro (h | h)
        · exact hfresh n (List.mem_cons.2 (Or.inr hn)) h
        · simp only [List.map_nil, List.mem_singleton] at h
          exact hnodup.1 (h ▸ List.mem_map_of_mem (fun n => pyStr n.id) hn))
    refine ⟨api2, ?_, ?_⟩
    · simp only [convertNodes, hapi]
      exact hg
    · rw [hkeys, hins]
      simp
  
/-- Keys only grow during conversion: every accumulator key and the string
form of every processed node id is a key of the final result. -/
theorem convertNodes_keys_mono (links : List Link) :
    ∀ (nodes : List EditorNode) (acc : List (String × ApiNode))
      (g : List (String × ApiNode)),
    convertNodes links nodes acc = .ok g →
    (∀ a ∈ acc.map Prod.fst, a ∈ g.map Prod.fst) ∧
    (∀ n ∈ nodes, pyStr n.id ∈ g.map Prod.fst) := by
  intro nodes
  induction nodes with
  | nil =>
    intro acc g hok
    cases hok
    exact ⟨fun a ha => ha, by simp⟩
  | cons node rest ih =>
    intro acc g hok
    simp only [convertNodes] at hok
    cases hapi : convertNode links node with
    | error e => rw [hapi] at hok; cases hok
    | ok api =>
      rw [hapi] at hok
      obtain ⟨hacc, hnodes⟩ := ih _ g hok
      have hstep : ∀ a ∈ acc.map Prod.fst, a ∈ g.map Prod.fst := by
        intro a ha
        exact hacc a ((mem_keys_dictInsert a _ api acc).2 (Or.inr ha))
      refine ⟨hstep, ?_⟩
      intro n hn
      rcases List.mem_cons.1 hn with h | h
      · subst h
        exact hacc _ ((mem_keys_dictInsert _ _ api acc).2 (Or.inl rfl))
      · exact hnodes n h

/-- All reference values a dict of inputs can hold after conversion point
at sources of the link table. -/
def refsFromLinks (links : List Link) (l : List (String × InputVal)) : Prop :=
  ∀ p ∈ l, ∀ s o, p.2 = InputVal.ref s o → ∃ lk ∈ links, s = pyStr lk.source

theorem refsFromLinks_resolveInputs (links : List Link) :
    ∀ (infos : List InputInfo) (acc : List (String × InputVal)),
    refsFromLinks links acc → refsFromLinks links (resolveInputs links infos acc) := by
  intro infos
  induction infos with
  | nil => intro acc h; exact h
  | cons info rest ih =>
    intro acc h
    cases hl : info.link with
    | none =>
      simp only [resolveInputs, hl]
      exact ih acc h
    | some lid =>
      cases hf : findLink lid links with
      | none =>
        simp only [resolveInputs, hl, hf]
        exact ih acc h
      | some lk =>
        simp only [resolveInputs, hl, hf]
        refine ih _ ?_
        intro p hp s o hval
        rcases snd_mem_dictInsert hp with h2 | ⟨q, hq, h2⟩
        · rw [h2] at hval
          cases hval
          exact ⟨lk, (findLink_mem hf).1, rfl⟩
        · exact h q hq s o (h2 ▸ hval)

/-- Widget conversion only ever stores literal values. -/
theorem applyWidgets_lit (node : EditorNode) (w : List (String × InputVal))
    (hok : applyWidgets node [] = .ok w) :
    ∀ p ∈ w, ∃ v, p.2 = InputVal.lit v := by
  unfold applyWidgets at hok
  split at hok
  · cases hok
    intro p hp
    cases hp
  · split at hok
    · split at hok
      · cases hok
      · cases hok
        intro p hp
        simp only [dictInsert, List.mem_singleton] at hp
        exact ⟨_, by rw [hp]⟩
    · cases hok
      intro p hp
      cases hp

theorem refsFromLinks_convertNode (links : List Link) (node : EditorNode)
    (api : ApiNode) (hok : convertNode links node = .ok api) :
    refsFromLinks links api.inputs := by
  unfold convertNode at hok
  cases hw : applyWidgets node [] with
  | error e => rw [hw] at hok; cases hok
  | ok w =>
    rw [hw] at hok
    cases hok
    refine refsFromLinks_resolveInputs links node.inputs w ?_
    intro p hp s o hval
    obtain ⟨v, hv⟩ := applyWidgets_lit node w hw p hp
    rw [hv] at hval
    cases hval

theorem refsFromLinks_convertNodes (links : List Link) :
    ∀ (nodes : List EditorNode) (acc g : List (String × ApiNode)),
    (∀ p ∈ acc, refsFromLinks links p.2.inputs) →
    convertNodes links nodes acc = .ok g →
    ∀ p ∈ g, refsFromLinks links p.2.inputs := by
  intro nodes
  induction nodes with
  | nil =>
    intro acc g hacc hok
    cases hok
    exact hacc
  | cons node rest ih =>
    intro acc g hacc hok
    simp only [convertNodes] at hok
    cases hapi : convertNode links node with
    | error e => rw [hapi] at hok; cases hok
    | ok api =>
      rw [hapi] at hok
      refine ih _ g ?_ hok
      intro p hp
      rcases snd_mem_dictInsert hp with h2 | ⟨q, hq, h2⟩
      · rw [h2]
        exact refsFromLinks_convertNode links node api hapi
      · rw [h2]
        exact hacc q hq

/-- Nodes whose id strings differ from a key leave that key's entry
unchanged. -/
theorem convertNodes_get_untouched (links : List Link) (k : String) :
    ∀ (nodes : List EditorNode) (acc g : List (String × ApiNode)),
    (∀ n ∈ nodes, pyStr n.id ≠ k) →
    convertNodes links nodes acc = .ok g →
    dictGet k g = dictGet k acc := by
  intro nodes
  induction nodes with
  | nil =>
    intro acc g _ hok
    cases hok
    rfl
  | cons node rest ih =>
    intro acc g hne hok
    simp only [convertNodes] at hok
    cases hapi : convertNode links node with
    | error e => rw [hapi] at hok; cases hok
    | ok api =>
      rw [hapi] at hok
      rw [ih _ g (fun n hn => hne n (List.mem_cons.2 (Or.inr hn))) hok]
      exact dictGet_dictInsert_ne api acc (hne node (List.mem_cons.2 (Or.inl rfl)))

/-- The produced graph's entry under a node's key is that node's converted
form, provided no later node reuses the id. -/
theorem convertNodes_get (links : List Link) :
    ∀ (preN : List EditorNode) (node : EditorNode) (postN : List EditorNode)
      (acc g : List (String × ApiNode)),
    (∀ n ∈ postN, n.id ≠ node.id) →
    convertNodes links (preN ++ node :: postN) acc = .ok g →
    ∃ api, convertNode links node = .ok api ∧
      dictGet (pyStr node.id) g = some api := by
  intro preN
  induction preN with
  | nil =>
    intro node postN acc g hlast hok
    simp only [List.nil_append, convertNodes] at hok
    cases hapi : convertNode links node with
    | error e => rw [hapi] at hok; cases hok
    | ok api =>
      rw [hapi] at hok
      refine ⟨api, rfl, ?_⟩
      rw [convertNodes_get_untouched links (pyStr node.id) postN _ g
        (fun n hn he => hlast n hn (pyStr_injective he)) hok]
      exact dictGet_dictInsert_self _ api acc
  | cons hd rest ih =>
    intro node postN acc g hlast hok
    simp only [List.cons_append, convertNodes] at hok
    cases hapi : convertNode links hd with
    | error e => rw [hapi] at hok; cases hok
    | ok api => exact ih node postN _ g hlast (by rw [hapi] at hok; exact hok)

/-- Replacing one node by another with the same id and the same converted
form leaves the whole conversion unchanged. -/
theorem convertNodes_ext (links : List Link) (node node' : EditorNode)
    (hid : node.id = node'.id)
    (hconv : convertNode links node = convertNode links node') :
    ∀ (n1 n2 : List EditorNode) (acc : List (String × ApiNode)),
    convertNodes links (n1 ++ node :: n2) acc =
      convertNodes links (n1 ++ node' :: n2) acc := by
  intro n1
  induction n1 with
  | nil =>
    intro n2 acc
    simp only [List.nil_append, convertNodes, hconv, hid]
  | cons hd rest ih =>
    intro n2 acc
    simp only [List.cons_append, convertNodes]
    cases convertNode links hd with
    | error e => rfl
    | ok api => exact ih n2 _

/-! ### Polling-loop lemma (generate-images-working.py, lines 69-92) -/

/-- A poll response that ends the waiting loop: status 200, prompt id
present, non-empty outputs. -/
def pollDone (h : HistoryResp) : Prop :=
  h.status = 200 ∧ h.hasPrompt = true ∧ h.outputs ≠ []

instance (h : HistoryResp) : Decidable (pollDone h) := by
  unfold pollDone
  infer_instance

theorem pollLoop_timeout (oracle : Nat → HistoryResp) (fx : String → Bool)
    (path : String) :
    ∀ (fuel i : Nat), (∀ j, j < i + fuel → ¬pollDone (oracle j)) →
    pollLoop oracle fx path fuel i =
      (false, ["⏰ Timeout waiting for image generation"]) := by
  intro fuel
  induction fuel with
  | zero => intro i _; rfl
  | succ f ih =>
    intro i hnever
    have hcur : ¬pollDone (oracle i) := hnever i (by omega)
    have hnext : pollLoop oracle fx path f (i + 1) =
        (false, ["⏰ Timeout waiting for image generation"]) :=
      ih (i + 1) (fun j hj => hnever j (by omega))
    unfold pollLoop
    unfold pollDone at hcur
    push_neg at hcur
    by_cases hcond : ((oracle i).status == 200 && (oracle i).hasPrompt) = true
    · have hparts : ((oracle i).status == 200) = true ∧ (oracle i).hasPrompt = true := by
        simpa [Bool.and_eq_true] using hcond
      have h200 : (oracle i).status = 200 := by simpa using hparts.1
      have hout : (oracle i).outputs = [] := hcur h200 hparts.2
      rw [if_pos hcond, hout]
      simpa using hnext
    · rw [if_neg hcond]
      exact hnext

/-! ### Selector lemmas (convert-workflow.py, lines 62-68) -/

theorem selectPositive_first (pre post : List (String × ApiNode))
    (kn : String × ApiNode)
    (hn : isPositiveTextNode kn.2 = true)
    (hpre : ∀ kv ∈ pre, isPositiveTextNode kv.2 = false) :
    selectPositive (pre ++ kn :: post) = some kn := by
  induction pre with
  | nil => simp [selectPositive, hn]
  | cons hd rest ih =>
    have hhd : isPositiveTextNode hd.2 = false :=
      hpre hd (List.mem_cons.2 (Or.inl rfl))
    simp only [List.cons_append, selectPositive, hhd]
    simp only [Bool.false_eq_true, if_false]
    exact ih fun kv hkv => hpre kv (List.mem_cons.2 (Or.inr hkv))

theorem updatePositivePrompt_first (t : String)
    (pre post : List (String × ApiNode)) (k : String) (n : ApiNode)
    (hn : isPositiveTextNode n = true)
    (hpre : ∀ kv ∈ pre, isPositiveTextNode kv.2 = false) :
    updatePositivePrompt t (pre ++ (k, n) :: post) =
      pre ++ (k, { n with
        inputs := dictInsert "text" (.lit (.vStr t)) n.inputs }) :: post := by
  induction pre with
  | nil => simp [updatePositivePrompt, hn]
  | cons hd rest ih =>
    obtain ⟨k', n'⟩ := hd
    have hhd : isPositiveTextNode n' = false :=
      hpre (k', n') (List.mem_cons.2 (Or.inl rfl))
    simp only [List.cons_append, updatePositivePrompt, hhd]
    simp only [Bool.false_eq_true, if_false, List.cons.injEq, true_and]
    exact ih fun kv hkv => hpre kv (List.mem_cons.2 (Or.inr hkv))

/-! ### Claim theorems -/

/-- C1: for every well-formed editor graph (each link-table entry's source
is the id of some node of the graph), every reference stored in an input
of any ExecutionNode produced by `convert_workflow_to_api` names a key
that is present in the produced ExecutionGraph: no dangling references. -/
theorem claim_C1_no_dangling_refs (wf : Workflow) (g : List (String × ApiNode))
    (hwf : ∀ lk ∈ wf.links, ∃ n ∈ wf.nodes, n.id = lk.source)
    (hok : convert_workflow_to_api wf = .ok g) :
    ∀ p ∈ g, ∀ q ∈ p.2.inputs, ∀ s o, q.2 = InputVal.ref s o →
      s ∈ g.map Prod.fst := by
  intro p hp q hq s o hval
  have hok' : convertNodes wf.links wf.nodes [] = .ok g := hok
  obtain ⟨lk, hlk, hs⟩ :=
    refsFromLinks_convertNodes wf.links wf.nodes [] g
      (by intro x hx; cases hx) hok' p hp q hq s o hval
  obtain ⟨n, hn, hid⟩ := hwf lk hlk
  have hkey := (convertNodes_keys_mono wf.links wf.nodes [] g hok').2 n hn
  rw [hs, ← hid]
  exact hkey

/-- Concrete two-node editor graph for the C1 witness. -/
def wfC1 : Workflow :=
  { nodes := [
      { id := 4, type := "CheckpointLoaderSimple", title := none,
        widgets_values := none, inputs := [] },
      { id := 6, type := "CLIPTextEncode",
        title := some "CLIP Text Encode (Positive)",
        widgets_values := some [.vStr "hello"],
        inputs := [{ name := "clip", link := some 4 }] }],
    links := [{ id := 4, source := 4, slot := 1 }] }

/-- Conversion result of `wfC1`. -/
def gC1 : List (String × ApiNode) :=
  [(pyStr 4, { class_type := "CheckpointLoaderSimple", meta_title := none,
               inputs := [] }),
   (pyStr 6, { class_type := "CLIPTextEncode",
               meta_title := some "CLIP Text Encode (Positive)",
               inputs := [("text", .lit (.vStr "hello")),
                          ("clip", .ref (pyStr 4) 1)] })]

theorem claim_C1_witness :
    (∀ lk ∈ wfC1.links, ∃ n ∈ wfC1.nodes, n.id = lk.source) ∧
    convert_workflow_to_api wfC1 = .ok gC1 ∧
    ∀ p ∈ gC1, ∀ q ∈ p.2.inputs, ∀ s o, q.2 = InputVal.ref s o →
      s ∈ gC1.map Prod.fst :=
  ⟨by decide, by rfl, claim_C1_no_dangling_refs wfC1 gC1 (by decide) (by rfl)⟩

/-- C2: in the API-format dict, the update loop of convert-workflow.py
selects exactly the first entry whose node is a text-encoding node whose
(lower-cased) title does not contain "negative", skipping every earlier
entry that fails that test, and overwrites only that node's `text`
input. -/
theorem claim_C2_selector_first_positive (pre post : List (String × ApiNode))
    (k : String) (n : ApiNode) (t : String)
    (hn : isPositiveTextNode n = true)
    (hpre : ∀ kv ∈ pre, isPositiveTextNode kv.2 = false) :
    selectPositive (pre ++ (k, n) :: post) = some (k, n) ∧
    updatePositivePrompt t (pre ++ (k, n) :: post) =
      pre ++ (k, { n with
        inputs := dictInsert "text" (.lit (.vStr t)) n.inputs }) :: post :=
  ⟨selectPositive_first pre post (k, n) hn hpre,
   updatePositivePrompt_first t pre post k n hn hpre⟩

/-- The negative-titled text node of the claim's example. -/
def negNodeC2 : ApiNode :=
  { class_type := "CLIPTextEncode",
    meta_title := some "CLIP Text Encode (Negative)",
    inputs := [("text", .lit (.vStr "blurry, low quality"))] }

/-- The positive-titled text node of the claim's example. -/
def posNodeC2 : ApiNode :=
  { class_type := "CLIPTextEncode",
    meta_title := some "CLIP Text Encode (Positive)",
    inputs := [("text", .lit (.vStr "old prompt"))] }

theorem claim_C2_witness :
    isPositiveTextNode posNodeC2 = true ∧
    isPositiveTextNode negNodeC2 = false ∧
    selectPositive [("7", negNodeC2), ("6", posNodeC2)] = some ("6", posNodeC2) ∧
    updatePositivePrompt "a beautiful test landscape"
        [("7", negNodeC2), ("6", posNodeC2)] =
      [("7", negNodeC2),
       ("6", { posNodeC2 with
         inputs := dictInsert "text"
           (.lit (.vStr "a beautiful test landscape")) posNodeC2.inputs })] := by
  have h := claim_C2_selector_first_positive [("7", negNodeC2)] [] "6" posNodeC2
    "a beautiful test landscape" (by decide) (by decide)
  exact ⟨by decide, by decide, h.1, h.2⟩

/-- Markdown document with two Episode headings; the comment in the source
says the episode number is taken "from the content before this scene", but
the code scans the whole document and takes the last match. -/
def brollDocC3 : String :=
  "# Episode 1 B-roll Prompts\n## Scene 1\n```\nalpha\n```\n# Episode 2 B-roll Prompts\n## Scene 2\n```\nbeta\n```\n"

/-- C3: the parser is claimed to associate each scene with the most
recently seen preceding Episode heading (the source comment says the same),
but `episode_matches[-1]` is computed over the whole document, so the scene
under the `# Episode 1` heading is reported with episode 2: the code
contradicts its stated intent.  This theorem evaluates the embedded parser
at the failing document. -/
theorem claim_C3_parser_episode_eval :
    parse_broll_prompts brollDocC3 =
      [{ episode := 2, scene := 1, prompt := "alpha".data },
       { episode := 2, scene := 2, prompt := "beta".data }] := by
  decide

/-- C4: a job whose polled status never reports non-empty outputs within
the 60-attempt budget makes `generate_image` return the timed-out outcome
(return value `False` plus the timeout diagnostic), and that outcome
differs from the outcome of every failed submission. -/
theorem claim_C4_poll_timeout_distinct (submit : SubmitResp)
    (oracle : Nat → HistoryResp) (fx : String → Bool) (path : String)
    (hs : submit.status = 200)
    (hnever : ∀ i, i < 60 → ¬pollDone (oracle i)) :
    generate_image submit oracle fx path =
      (false, ["🚀 Submitting to ComfyUI...",
               "✅ Submitted! Prompt ID: " ++ pyOptStr submit.prompt_id,
               "⏰ Timeout waiting for image generation"]) ∧
    ∀ (submit2 : SubmitResp) (oracle2 : Nat → HistoryResp)
      (fx2 : String → Bool) (path2 : String), submit2.status ≠ 200 →
      generate_image submit oracle fx path ≠
        generate_image submit2 oracle2 fx2 path2 := by
  have hto : pollLoop oracle fx path 60 0 =
      (false, ["⏰ Timeout waiting for image generation"]) :=
    pollLoop_timeout oracle fx path 60 0 (fun j hj => hnever j (by omega))
  have hcond : (submit.status == 200) = true := by simpa using hs
  have heq : generate_image submit oracle fx path =
      (false, ["🚀 Submitting to ComfyUI...",
               "✅ Submitted! Prompt ID: " ++ pyOptStr submit.prompt_id,
               "⏰ Timeout waiting for image generation"]) := by
    unfold generate_image
    rw [if_pos hcond, hto]
    rfl
  refine ⟨heq, ?_⟩
  intro submit2 oracle2 fx2 path2 hne hcontra
  have hcond2 : ¬((submit2.status == 200) = true) := by simpa using hne
  rw [heq] at hcontra
  unfold generate_image at hcontra
  rw [if_neg hcond2] at hcontra
  have hlen := congrArg (fun p : Bool × List String => p.2.length) hcontra
  simp at hlen

/-- The submission response of the C4 witness. -/
def submitC4 : SubmitResp := { status := 200, text := "", prompt_id := some "abc123" }

/-- The polling oracle of the C4 witness: the history never lists the
prompt id. -/
def oracleC4 : Nat → HistoryResp :=
  fun _ => { status := 200, hasPrompt := false, outputs := [] }

theorem claim_C4_witness :
    submitC4.status = 200 ∧
    (∀ i, i < 60 → ¬pollDone (oracleC4 i)) ∧
    generate_image submitC4 oracleC4 (fun _ => false) "/tmp/out.png" =
      (false, ["🚀 Submitting to ComfyUI...",
               "✅ Submitted! Prompt ID: " ++ pyOptStr submitC4.prompt_id,
               "⏰ Timeout waiting for image generation"]) ∧
    generate_image submitC4 oracleC4 (fun _ => false) "/tmp/out.png" ≠
      generate_image { status := 400, text := "invalid prompt", prompt_id := none }
        oracleC4 (fun _ => false) "/tmp/out.png" := by
  have hnever : ∀ i, i < 60 → ¬pollDone (oracleC4 i) := by
    intro i _
    show ¬pollDone { status := 200, hasPrompt := false, outputs := [] }
    decide
  have h := claim_C4_poll_timeout_distinct submitC4 oracleC4 (fun _ => false)
    "/tmp/out.png" (by decide) hnever
  exact ⟨by decide, hnever, h.1, h.2 _ _ _ _ (by decide)⟩

/-- C5: a submission answered with a non-200 status makes `generate_image`
return the failed outcome carrying the response body verbatim, and the
poll and filesystem oracles are never consulted: the result is the same
whatever they would have answered. -/
theorem claim_C5_submit_failure_no_poll (submit : SubmitResp)
    (hs : submit.status ≠ 200) :
    (∀ (oracle : Nat → HistoryResp) (fx : String → Bool) (path : String),
      generate_image submit oracle fx path =
        (false, ["🚀 Submitting to ComfyUI...",
                 "❌ Failed to submit: " ++ pyStr submit.status ++ " - " ++
                   submit.text])) ∧
    (∀ (o1 o2 : Nat → HistoryResp) (fx1 fx2 : String → Bool) (path : String),
      generate_image submit o1 fx1 path = generate_image submit o2 fx2 path) := by
  have hcond : ¬((submit.status == 200) = true) := by simpa using hs
  have hfail : ∀ (oracle : Nat → HistoryResp) (fx : String → Bool) (path : String),
      generate_image submit oracle fx path =
        (false, ["🚀 Submitting to ComfyUI...",
                 "❌ Failed to submit: " ++ pyStr submit.status ++ " - " ++
                   submit.text]) := by
    intro oracle fx path
    unfold generate_image
    rw [if_neg hcond]
    rfl
  exact ⟨hfail, fun o1 o2 fx1 fx2 path => by rw [hfail o1 fx1 path, hfail o2 fx2 path]⟩

/-- The submission response of the C5 witness. -/
def submitC5 : SubmitResp :=
  { status := 400, text := "invalid prompt: missing node 4", prompt_id := none }

/-- A poll oracle that would report completion if ever consulted. -/
def oracleC5 : Nat → HistoryResp :=
  fun _ => { status := 200, hasPrompt := true,
             outputs := [("9", { images := some [{ filename := "img.png" }] })] }

/-- A poll oracle that would never report completion. -/
def oracleC5b : Nat → HistoryResp :=
  fun _ => { status := 500, hasPrompt := false, outputs := [] }

theorem claim_C5_witness :
    submitC5.status ≠ 200 ∧
    generate_image submitC5 oracleC5 (fun _ => true) "/tmp/o.png" =
      (false, ["🚀 Submitting to ComfyUI...",
               "❌ Failed to submit: " ++ pyStr submitC5.status ++ " - " ++
                 submitC5.text]) ∧
    generate_image submitC5 oracleC5 (fun _ => true) "/tmp/o.png" =
      generate_image submitC5 oracleC5b (fun _ => false) "/tmp/o.png" := by
  have h := claim_C5_submit_failure_no_poll submitC5 (by decide)
  exact ⟨by decide, h.1 oracleC5 _ _, h.2 oracleC5 oracleC5b _ _ _⟩

/-- Counterexample graph for C6: one node, distinct ids trivially, but a
`CLIPTextEncode` node with a present-but-empty `widgets_values`, on which
`node['widgets_values'][0]` raises `IndexError` and the conversion aborts. -/
def wfC6cex : Workflow :=
  { nodes := [{ id := 1, type := "CLIPTextEncode", title := none,
                widgets_values := some [], inputs := [] }],
    links := [] }

/-- C6 counterexample: an editor graph with one node and pairwise distinct
ids on which the converter produces no ExecutionGraph at all (it raises),
refuting the claim as stated. -/
theorem claim_C6_cex :
    (wfC6cex.nodes.map EditorNode.id).Nodup ∧
    wfC6cex.nodes.length = 1 ∧
    ∀ g, convert_workflow_to_api wfC6cex ≠ .ok g := by
  refine ⟨by decide, rfl, ?_⟩
  intro g h
  have he : convert_workflow_to_api wfC6cex = .error "IndexError" := rfl
  rw [he] at h
  cases h

/-- C6 (amended): for every editor graph whose node ids are pairwise
distinct and in which no `CLIPTextEncode` node carries a present-but-empty
`widgets_values`, the converter produces an ExecutionGraph with exactly N
keys, one per node id in its string form. -/
theorem claim_C6_amended_key_per_node (wf : Workflow)
    (hids : (wf.nodes.map EditorNode.id).Nodup)
    (hw : ∀ n ∈ wf.nodes, n.type = "CLIPTextEncode" →
      n.widgets_values ≠ some []) :
    ∃ g, convert_workflow_to_api wf = .ok g ∧
      g.map Prod.fst = (wf.nodes.map fun n => pyStr n.id) ∧
      g.length = wf.nodes.length := by
  have hnodup : (wf.nodes.map fun n => pyStr n.id).Nodup := by
    have hcomp : (wf.nodes.map fun n => pyStr n.id) =
        (wf.nodes.map EditorNode.id).map pyStr := by
      rw [List.map_map]
      rfl
    rw [hcomp]
    exact hids.map pyStr_injective
  obtain ⟨g, hok, hkeys⟩ := convertNodes_keys wf.links wf.nodes []
    hw hnodup (by intro n _ hmem; cases hmem)
  refine ⟨g, hok, by simpa using hkeys, ?_⟩
  have hlen := congrArg List.length hkeys
  simpa using hlen

/-- Concrete editor graph for the C6 witness. -/
def wfC6 : Workflow :=
  { nodes := [
      { id := 4, type := "CheckpointLoaderSimple", title := none,
        widgets_values := none, inputs := [] },
      { id := 6, type := "CLIPTextEncode", title := some "T",
        widgets_values := some [.vStr "hi"], inputs := [] },
      { id := 12, type := "VAEDecode", title := none,
        widgets_values := none, inputs := [] }],
    links := [] }

theorem claim_C6_witness :
    (wfC6.nodes.map EditorNode.id).Nodup ∧
    (∀ n ∈ wfC6.nodes, n.type = "CLIPTextEncode" →
      n.widgets_values ≠ some []) ∧
    ∃ g, convert_workflow_to_api wfC6 = .ok g ∧
      g.map Prod.fst = (wfC6.nodes.map fun n => pyStr n.id) ∧
      g.length = wfC6.nodes.length :=
  ⟨by decide, by decide,
   claim_C6_amended_key_per_node wfC6 (by decide) (by decide)⟩

/-- C7: when a node's input slot X carries a link id whose first matching
link-table entry (duplicates may follow) is `(lid, src, slot)`, and no
later input of the node resolves under the same name, and no later node
reuses the node's id, then in the produced ExecutionGraph the node's entry
has input X set to the reference `[str(src), slot]`. -/
theorem claim_C7_first_link_resolution (wf : Workflow)
    (preN postN : List EditorNode) (node : EditorNode)
    (pre post : List InputInfo) (X : String) (lid : Nat)
    (L1 L2 : List Link) (lk : Link) (g : List (String × ApiNode))
    (hnodes : wf.nodes = preN ++ node :: postN)
    (hlast : ∀ n ∈ postN, n.id ≠ node.id)
    (hinp : node.inputs = pre ++ { name := X, link := some lid } :: post)
    (hpost : ∀ info ∈ post, info.name = X →
      ∀ lid2, info.link = some lid2 → findLink lid2 wf.links = none)
    (hlinks : wf.links = L1 ++ lk :: L2)
    (hL1 : ∀ l ∈ L1, l.id ≠ lid)
    (hlk : lk.id = lid)
    (hok : convert_workflow_to_api wf = .ok g) :
    ∃ api, dictGet (pyStr node.id) g = some api ∧
      dictGet X api.inputs = some (.ref (pyStr lk.source) lk.slot) := by
  have hok' : convertNodes wf.links (preN ++ node :: postN) [] = .ok g := by
    rw [← hnodes]
    exact hok
  obtain ⟨api, hapi, hget⟩ :=
    convertNodes_get wf.links preN node postN [] g hlast hok'
  refine ⟨api, hget, ?_⟩
  unfold convertNode at hapi
  cases hwdg : applyWidgets node [] with
  | error e => rw [hwdg] at hapi; cases hapi
  | ok w =>
    rw [hwdg] at hapi
    cases hapi
    show dictGet X (resolveInputs wf.links node.inputs w) = _
    rw [hinp, resolveInputs_append]
    have hfind : findLink lid wf.links = some lk := by
      rw [hlinks]
      exact findLink_first L1 L2 hL1 hlk
    simp only [resolveInputs, hfind]
    rw [dictGet_resolveInputs_no_touch wf.links X post _ hpost]
    exact dictGet_dictInsert_self _ _ _

/-- The node of the C7 witness. -/
def nodeC7 : EditorNode :=
  { id := 3, type := "KSampler", title := none, widgets_values := none,
    inputs := [{ name := "model", link := some 7 }] }

/-- The workflow of the C7 witness: the link table holds a non-matching
entry, the matching entry `(7, 12, 0)`, and a duplicate of id 7 after it. -/
def wfC7 : Workflow :=
  { nodes := [nodeC7],
    links := [{ id := 5, source := 1, slot := 0 },
              { id := 7, source := 12, slot := 0 },
              { id := 7, source := 99, slot := 1 }] }

def gC7 : List (String × ApiNode) :=
  [(pyStr 3, { class_type := "KSampler", meta_title := none,
               inputs := [("model", InputVal.ref (pyStr 12) 0)] })]

theorem claim_C7_witness :
    ∃ api, dictGet (pyStr nodeC7.id) gC7 = some api ∧
      dictGet "model" api.inputs = some (.ref (pyStr 12) 0) :=
  claim_C7_first_link_resolution wfC7 [] [] nodeC7 [] [] "model" 7
    [{ id := 5, source := 1, slot := 0 }]
    [{ id := 7, source := 99, slot := 1 }]
    { id := 7, source := 12, slot := 0 } gC7
    rfl (by decide) rfl (by decide) rfl (by decide) rfl (by rfl)

/-- Counterexample node for C8: the `text` widget is also wired by a
resolvable link, and reference resolution overwrites the widget literal. -/
def nodeC8 : EditorNode :=
  { id := 6, type := "CLIPTextEncode", title := none,
    widgets_values := some [.vStr "hello"],
    inputs := [{ name := "text", link := some 7 }] }

/-- Link table for the C8 counterexample. -/
def linksC8 : List Link := [{ id := 7, source := 12, slot := 0 }]

/-- C8 counterexample: a `CLIPTextEncode` node with
`widgets_values = ["hello"]` whose ExecutionNode does NOT have `text =
"hello"` (the resolvable `text` connection overwrites the literal),
refuting the claim as stated. -/
theorem claim_C8_cex :
    nodeC8.type = "CLIPTextEncode" ∧
    nodeC8.widgets_values = some [.vStr "hello"] ∧
    ∀ api, convertNode linksC8 nodeC8 = .ok api →
      dictGet "text" api.inputs ≠ some (.lit (.vStr "hello")) := by
  refine ⟨rfl, rfl, ?_⟩
  intro api h hcontra
  have heval : convertNode linksC8 nodeC8 =
      .ok { class_type := "CLIPTextEncode", meta_title := none,
            inputs := [("text", InputVal.ref (pyStr 12) 0)] } := rfl
  rw [heval] at h
  injection h with h2
  rw [← h2] at hcontra
  exact absurd hcontra (by decide)

/-- C8 (amended): a `CLIPTextEncode` node with `widgets_values = ["hello"]`
converts to an ExecutionNode whose `text` input is the literal `"hello"`,
provided no input connection named `text` resolves against the link table
(a resolvable `text` connection would overwrite the literal — see C10). -/
theorem claim_C8_amended_widget_literal (node : EditorNode) (links : List Link)
    (htype : node.type = "CLIPTextEncode")
    (hwv : node.widgets_values = some [.vStr "hello"])
    (hnores : ∀ info ∈ node.inputs, info.name = "text" →
      ∀ lid, info.link = some lid → findLink lid links = none) :
    ∃ api, convertNode links node = .ok api ∧
      dictGet "text" api.inputs = some (.lit (.vStr "hello")) := by
  have hwdg : applyWidgets node [] =
      .ok [("text", InputVal.lit (.vStr "hello"))] := by
    unfold applyWidgets
    rw [hwv]
    simp [htype, dictInsert]
  unfold convertNode
  rw [hwdg]
  refine ⟨_, rfl, ?_⟩
  show dictGet "text"
    (resolveInputs links node.inputs [("text", InputVal.lit (.vStr "hello"))]) = _
  rw [dictGet_resolveInputs_no_touch links "text" node.inputs _ hnores]
  rfl

/-- Witness node for the amended C8: its only connection is `clip`, whose
link does not even resolve. -/
def nodeC8w : EditorNode :=
  { id := 6, type := "CLIPTextEncode", title := none,
    widgets_values := some [.vStr "hello"],
    inputs := [{ name := "clip", link := some 4 }] }

theorem claim_C8_witness :
    nodeC8w.type = "CLIPTextEncode" ∧
    nodeC8w.widgets_values = some [.vStr "hello"] ∧
    ∃ api, convertNode [] nodeC8w = .ok api ∧
      dictGet "text" api.inputs = some (.lit (.vStr "hello")) :=
  ⟨rfl, rfl, claim_C8_amended_widget_literal nodeC8w [] rfl rfl (by decide)⟩

/-- Counterexample node for C9: its `text` input carries link 7, which has
no entry in the (empty) link table, yet the ExecutionNode still has an
entry under `text` (the widget literal). -/
def nodeC9 : EditorNode :=
  { id := 6, type := "CLIPTextEncode", title := none,
    widgets_values := some [.vStr "hello"],
    inputs := [{ name := "text", link := some 7 }] }

/-- C9 counterexample: the unresolved input is skipped, but the produced
ExecutionNode does have an entry under that input name (populated from
`widgets_values`), refuting the claim's "no entry under that input name". -/
theorem claim_C9_cex :
    (∀ l ∈ ([] : List Link), l.id ≠ 7) ∧
    nodeC9.inputs = [{ name := "text", link := some 7 }] ∧
    ∀ api, convertNode [] nodeC9 = .ok api →
      dictGet "text" api.inputs ≠ none := by
  refine ⟨by decide, rfl, ?_⟩
  intro api h
  have heval : convertNode [] nodeC9 =
      .ok { class_type := "CLIPTextEncode", meta_title := none,
            inputs := [("text", InputVal.lit (.vStr "hello"))] } := rfl
  rw [heval] at h
  injection h with h2
  rw [← h2]
  decide

/-- C9 (amended): an input whose link id has no entry in the link table is
skipped: the conversion result is exactly the conversion of the same graph
with that single input removed — every other input and node is converted,
the entry under that name is whatever other processing produced (absent if
nothing else populated it), and the conversion never fails because of the
unresolved link. -/
theorem claim_C9_amended_skip_unresolved (wf : Workflow)
    (preN postN : List EditorNode) (node : EditorNode)
    (pre post : List InputInfo) (X : String) (lid : Nat)
    (hnodes : wf.nodes = preN ++ node :: postN)
    (hinp : node.inputs = pre ++ { name := X, link := some lid } :: post)
    (hunres : ∀ l ∈ wf.links, l.id ≠ lid) :
    convert_workflow_to_api wf =
      convert_workflow_to_api
        { nodes := preN ++ { node with inputs := pre ++ post } :: postN,
          links := wf.links } := by
  have hfind : findLink lid wf.links = none := findLink_eq_none hunres
  have hconv : convertNode wf.links node =
      convertNode wf.links { node with inputs := pre ++ post } := by
    unfold convertNode
    cases hwdg : applyWidgets node [] with
    | error e =>
      have hwdg2 : applyWidgets { node with inputs := pre ++ post } [] =
          .error e := hwdg
      rw [hwdg2]
    | ok w =>
      have hwdg2 : applyWidgets { node with inputs := pre ++ post } [] =
          .ok w := hwdg
      rw [hwdg2]
      dsimp only
      rw [hinp, resolveInputs_append]
      simp only [resolveInputs, hfind]
      rw [← resolveInputs_append]
  show convertNodes wf.links wf.nodes [] = _
  rw [hnodes]
  exact convertNodes_ext wf.links node { node with inputs := pre ++ post }
    rfl hconv preN postN []

/-- Witness workflow for C9: one node whose `text` input carries the
unresolvable link 7 (the table only knows id 9). -/
def wfC9 : Workflow :=
  { nodes := [{ id := 6, type := "CLIPTextEncode", title := none,
                widgets_values := some [.vStr "hello"],
                inputs := [{ name := "text", link := some 7 }] }],
    links := [{ id := 9, source := 2, slot := 0 }] }

theorem claim_C9_witness :
    (∀ l ∈ wfC9.links, l.id ≠ 7) ∧
    convert_workflow_to_api wfC9 =
      convert_workflow_to_api
        { nodes := [{ id := 6, type := "CLIPTextEncode", title := none,
                      widgets_values := some [.vStr "hello"],
                      inputs := [] ++ [] }],
          links := wfC9.links } :=
  ⟨by decide,
   claim_C9_amended_skip_unresolved wfC9 [] []
     { id := 6, type := "CLIPTextEncode", title := none,
       widgets_values := some [.vStr "hello"],
       inputs := [{ name := "text", link := some 7 }] }
     [] [] "text" 7 rfl rfl (by decide)⟩

/-- C10: when an input connection's name collides with a name already
populated from `widgets_values` (a `CLIPTextEncode` node whose `text`
input also carries a resolvable link), reference resolution overwrites the
widget-derived literal: the resulting input under that name is the
reference, never a literal. -/
theorem claim_C10_ref_overwrites_literal (node : EditorNode)
    (links : List Link) (pre post : List InputInfo) (lid : Nat) (lk : Link)
    (v : Value) (vs : List Value)
    (htype : node.type = "CLIPTextEncode")
    (hwv : node.widgets_values = some (v :: vs))
    (hinp : node.inputs = pre ++ { name := "text", link := some lid } :: post)
    (hfind : findLink lid links = some lk)
    (hpost : ∀ info ∈ post, info.name = "text" →
      ∀ lid2, info.link = some lid2 → findLink lid2 links = none) :
    ∃ api, convertNode links node = .ok api ∧
      dictGet "text" api.inputs = some (.ref (pyStr lk.source) lk.slot) ∧
      ∀ w, dictGet "text" api.inputs ≠ some (.lit w) := by
  have hwdg : applyWidgets node [] = .ok [("text", InputVal.lit v)] := by
    unfold applyWidgets
    rw [hwv]
    simp [htype, dictInsert]
  unfold convertNode
  rw [hwdg]
  have hval : dictGet "text"
      (resolveInputs links node.inputs [("text", InputVal.lit v)]) =
      some (.ref (pyStr lk.source) lk.slot) := by
    rw [hinp, resolveInputs_append]
    simp only [resolveInputs, hfind]
    rw [dictGet_resolveInputs_no_touch links "text" post _ hpost]
    exact dictGet_dictInsert_self _ _ _
  refine ⟨_, rfl, hval, ?_⟩
  intro w hcontra
  rw [hval] at hcontra
  injection hcontra with h2
  exact InputVal.noConfusion h2

/-- Witness node for C10 (text widget plus resolvable text link). -/
def nodeC10 : EditorNode :=
  { id := 6, type := "CLIPTextEncode", title := none,
    widgets_values := some [.vStr "hello"],
    inputs := [{ name := "text", link := some 7 }] }

/-- Witness link table for C10. -/
def linksC10 : List Link := [{ id := 7, source := 12, slot := 0 }]

theorem claim_C10_witness :
    ∃ api, convertNode linksC10 nodeC10 = .ok api ∧
      dictGet "text" api.inputs = some (.ref (pyStr 12) 0) ∧
      ∀ w, dictGet "text" api.inputs ≠ some (.lit w) :=
  claim_C10_ref_overwrites_literal nodeC10 linksC10 [] [] 7
    { id := 7, source := 12, slot := 0 } (.vStr "hello") []
    rfl rfl rfl rfl (by decide)
